import Mathlib

/-!
# Verification of the lithos WorthPoint pipeline

Shallow embedding of the two core scripts of the repository:

* `scripts/process-worthpoint-csvs.py` — field extractors (`extract_weight`,
  `parse_price`, `parse_date`), the material classifier table
  (`MATERIAL_CONFIG`, `get_material_key`), the filter/dedup pass (step 2 of
  `main`) and the normalization pass (step 3 of `main`);
* `scripts/import-worthpoint-to-supabase.py` — `load_merged_csv` and
  `calculate_monthly_medians`.

Modelling conventions:

* Python strings are `List Char`; an absent or empty CSV/dict field is `[]`
  (both are falsy in the source, which only ever tests them with `if not x`).
* Python floats are modelled as exact rationals `ℚ`.  `round(x, n)` is
  modelled as round-half-to-even on the exact decimal value (`pyRound`);
  the source applies it to binary floats, where representation error can
  flip an exact decimal tie, but no property proved here depends on such a
  tie except where noted.
* `re.search` with the eight weight patterns is embedded as a backtracking
  matcher (`reMatch`/`searchFrom`) producing the same leftmost match and the
  same group-1 capture order as CPython's engine on these patterns.  `$` is
  modelled as end-of-input (CPython additionally lets `$` match before a
  final newline); character classes `\s`/`\d` are modelled by their ASCII
  parts.
-/

namespace Lithos

/-! ## Numeric model: Python `round(x, n)` on exact decimals -/

/-- Round a rational to the nearest integer, ties to even
(CPython `round` semantics on the exact value). -/
def halfEvenInt (q : ℚ) : ℤ :=
  let f := ⌊q⌋
  if q - f < 1/2 then f
  else if (1 : ℚ)/2 < q - f then f + 1
  else if f % 2 = 0 then f else f + 1

/-- Python `round(q, n)`. -/
def pyRound (n : ℕ) (q : ℚ) : ℚ :=
  (halfEvenInt (q * 10 ^ n) : ℚ) / 10 ^ n

/-! ## Character utilities -/

/-- ASCII whitespace matched by Python's `\s` and stripped by `str.strip()`. -/
def wsChars : List Char := [' ', '\t', '\n', '\x0b', '\x0c', '\r']

def isPySpace (c : Char) : Bool := wsChars.contains c

def digitChars : List Char := ['0', '1', '2', '3', '4', '5', '6', '7', '8', '9']

/-- `str.lower()` (ASCII part; listing titles in the data are ASCII). -/
def lowerStr (s : List Char) : List Char := s.map Char.toLower

/-- Value of a digit string, e.g. `natOfDigits ['4','2'] = 42`. -/
def natOfDigits (l : List Char) : ℕ := l.foldl (fun n c => 10 * n + (c.toNat - 48)) 0

/-! ## Backtracking regex engine

Just enough of CPython's `re` to run the eight patterns of
`extract_weight` faithfully: character classes, concatenation, ordered
alternation, a greedy star over a character class, and `$`.  All stars in
the source patterns range over character classes, so `starCls` suffices. -/

inductive RE where
  | eps : RE
  | cls : List Char → RE
  | seq : RE → RE → RE
  | alt : RE → RE → RE
  | starCls : List Char → RE
  | eos : RE

/-- Length of the maximal prefix run of characters from `cs`. -/
def maxRun (cs : List Char) : List Char → Nat
  | [] => 0
  | c :: s => if cs.contains c then maxRun cs s + 1 else 0

/-- Greedy continuation for `starCls`: try consuming `n, n-1, …, 0` chars. -/
def tryDrops (k : List Char → Bool) (s : List Char) : Nat → Bool
  | 0 => k s
  | n + 1 => k (s.drop (n + 1)) || tryDrops k s n

/-- Backtracking matcher in continuation style; alternatives are tried in
CPython's order (left alternative first, greedy stars longest first). -/
def reMatch : RE → List Char → (List Char → Bool) → Bool
  | .eps, s, k => k s
  | .cls cs, s, k =>
    match s with
    | [] => false
    | c :: s' => cs.contains c && k s'
  | .seq a b, s, k => reMatch a s (fun s' => reMatch b s' k)
  | .alt a b, s, k => reMatch a s k || reMatch b s k
  | .starCls cs, s, k => tryDrops k s (maxRun cs s)
  | .eos, s, k => s.isEmpty && k s

/-- All ways `\d*` can split `r` (greedy order), capture prefixed by `cap`. -/
def starSplits (cap : List Char) (r : List Char) : List (List Char × List Char) :=
  let j := maxRun digitChars r
  (List.range (j + 1)).map (fun e => (cap ++ r.take (j - e), r.drop (j - e)))

/-- All ways `\.?\d*` can split `r` (greedy order: with the dot first). -/
def dotStarSplits (cap : List Char) (r : List Char) : List (List Char × List Char) :=
  (match r with
   | '.' :: r2 => starSplits (cap ++ ['.']) r2
   | _ => []) ++ starSplits cap r

/-- All (capture, rest) splits of the group `(\d+\.?\d*)` anchored at the
start of `s`, in CPython's backtracking order. -/
def numSplits (s : List Char) : List (List Char × List Char) :=
  let m := maxRun digitChars s
  (List.range m).map (fun d => dotStarSplits (s.take (m - d)) (s.drop (m - d))) |>.flatten

/-- `re.search` for a pattern of the form `(\d+\.?\d*)<suffix>`: scan start
positions left to right, return group 1 of the first match. -/
def searchFrom (suffix : RE) : List Char → Option (List Char)
  | [] => none
  | s@(_ :: rest) =>
    match (numSplits s).find? (fun cr => reMatch suffix cr.2 (fun _ => true)) with
    | some cr => some cr.1
    | none => searchFrom suffix rest

/-! ## `extract_weight` (process-worthpoint-csvs.py, lines 50–68) -/

/-- Case-insensitive single letter (the source compiles with `re.IGNORECASE`). -/
def ci (l u : Char) : RE := RE.cls [l, u]

def reOpt (a : RE) : RE := RE.alt a RE.eps

def reCat (l : List RE) : RE := l.foldr RE.seq RE.eps

/-- `(?:rams?)?` -/
def ramsOpt : RE := reOpt (reCat [ci 'r' 'R', ci 'a' 'A', ci 'm' 'M', reOpt (ci 's' 'S')])

/-- `(?:\s|$|,)` -/
def endWsEosComma : RE := RE.alt (RE.cls wsChars) (RE.alt RE.eos (RE.cls [',']))

/-- `(?:\s|$)` -/
def endWsEos : RE := RE.alt (RE.cls wsChars) RE.eos

/-- Suffix of `(\d+\.?\d*)\s*[Gg](?:rams?)?(?:\s|$|,)`. -/
def pat1 : RE := reCat [RE.starCls wsChars, RE.cls ['G', 'g'], ramsOpt, endWsEosComma]

/-- Suffix of `(\d+\.?\d*)-[Gg](?:rams?)?`. -/
def pat2 : RE := reCat [RE.cls ['-'], RE.cls ['G', 'g'], ramsOpt]

/-- Suffix of `(\d+\.?\d*)\s*[Gg]r\.?(?:\s|$)`. -/
def pat3 : RE := reCat [RE.starCls wsChars, RE.cls ['G', 'g'], ci 'r' 'R', reOpt (RE.cls ['.']), endWsEos]

/-- Suffix of `(\d+\.?\d*)\s*ct(?:s)?(?:\s|$)`. -/
def pat4 : RE := reCat [RE.starCls wsChars, ci 'c' 'C', ci 't' 'T', reOpt (ci 's' 'S'), endWsEos]

/-- Suffix of `(\d+\.?\d*)\s*carat`. -/
def pat5 : RE := reCat [RE.starCls wsChars, ci 'c' 'C', ci 'a' 'A', ci 'r' 'R', ci 'a' 'A', ci 't' 'T']

/-- Suffix of `(\d+\.?\d*)\s*oz(?:\s|$)`. -/
def pat6 : RE := reCat [RE.starCls wsChars, ci 'o' 'O', ci 'z' 'Z', endWsEos]

/-- Suffix of `(\d+\.?\d*)\s*kg(?:\s|$)`. -/
def pat7 : RE := reCat [RE.starCls wsChars, ci 'k' 'K', ci 'g' 'G', endWsEos]

/-- Suffix of `(\d+\.?\d*)\s*lb(?:s)?(?:\s|$)`. -/
def pat8 : RE := reCat [RE.starCls wsChars, ci 'l' 'L', ci 'b' 'B', reOpt (ci 's' 'S'), endWsEos]

/-- The eight source patterns paired with their gram multipliers, in source
order: `g/grams`, `-g`, `gr.`, `ct(s)`, `carat`, `oz`, `kg`, `lb(s)`. -/
def patterns : List (RE × ℚ) :=
  [ (pat1, 1), (pat2, 1), (pat3, 1), (pat4, 1/5),
    (pat5, 1/5), (pat6, 567/20), (pat7, 1000), (pat8, 2268/5) ]

/-- `float` of a string matching `\d+\.?\d*`, as an exact rational. -/
def parseNum (l : List Char) : ℚ :=
  let ip := l.takeWhile Char.isDigit
  let rest := l.dropWhile Char.isDigit
  match rest with
  | '.' :: fr => (natOfDigits ip : ℚ) + (natOfDigits fr : ℚ) / 10 ^ fr.length
  | _ => (natOfDigits ip : ℚ)

/-- The pattern loop of `extract_weight`: first pattern whose match converts
to a weight inside `(0.01, 100000)`; an out-of-bounds match falls through to
the next pattern. -/
def extract_weight_go : List (RE × ℚ) → List Char → Option ℚ
  | [], _ => none
  | (p, mult) :: ps, title =>
    match searchFrom p title with
    | some cap =>
      let weight := parseNum cap * mult
      if 1/100 < weight ∧ weight < 100000 then some (pyRound 3 weight)
      else extract_weight_go ps title
    | none => extract_weight_go ps title

/-- `extract_weight(title)` — weight in grams from a listing title. -/
def extract_weight (title : List Char) : Option ℚ :=
  extract_weight_go patterns title

/-! ## Python `float()` on a string (exact-decimal model)

Grammar modelled: optional surrounding whitespace, optional sign,
`digits[.digits] | .digits`, optional exponent `(e|E)[sign]digits`.
(`inf`/`nan`/underscored literals are outside the model; no value the
pipeline produces or consumes uses them.) -/

def wsStrip (s : List Char) : List Char :=
  ((s.dropWhile isPySpace).reverse.dropWhile isPySpace).reverse

def expTail (m : ℚ) (r : List Char) : Option ℚ :=
  let sr : ℤ × List Char :=
    match r with
    | '+' :: r' => (1, r')
    | '-' :: r' => (-1, r')
    | _ => (1, r)
  let ds := sr.2.takeWhile Char.isDigit
  let rest := sr.2.dropWhile Char.isDigit
  if ds.isEmpty || !rest.isEmpty then none
  else some (m * (10 : ℚ) ^ (sr.1 * (natOfDigits ds : ℤ)))

def expPart (m : ℚ) : List Char → Option ℚ
  | [] => some m
  | 'e' :: r => expTail m r
  | 'E' :: r => expTail m r
  | _ => none

def floatCore (s : List Char) : Option ℚ :=
  let ip := s.takeWhile Char.isDigit
  let s1 := s.dropWhile Char.isDigit
  match s1 with
  | '.' :: r =>
    let fp := r.takeWhile Char.isDigit
    let s2 := r.dropWhile Char.isDigit
    if ip.isEmpty && fp.isEmpty then none
    else expPart ((natOfDigits ip : ℚ) + (natOfDigits fp : ℚ) / 10 ^ fp.length) s2
  | _ => if ip.isEmpty then none else expPart (natOfDigits ip : ℚ) s1

/-- `float(s)` for a string, `none` on `ValueError`. -/
def floatParse (s : List Char) : Option ℚ :=
  match wsStrip s with
  | '+' :: r => floatCore r
  | '-' :: r => (floatCore r).map (fun q => -q)
  | r => floatCore r

/-! ## `parse_price` (process-worthpoint-csvs.py, lines 71–83) -/

/-- `parse_price(price_str)`: strip `$`, commas and whitespace anywhere,
parse as float, accept only `(0, 1000000)`, round to 2 decimals. -/
def parse_price (price_str : List Char) : Option ℚ :=
  if price_str = [] then none
  else
    let cleaned := price_str.filter (fun c => !(c == '$' || c == ',' || isPySpace c))
    match floatParse cleaned with
    | none => none
    | some price => if 0 < price ∧ price < 1000000 then some (pyRound 2 price) else none

/-! ## `parse_date` (process-worthpoint-csvs.py, lines 86–97)

`datetime.strptime` is modelled for the four formats of the source,
following CPython's `_strptime` regexes: `%d = (3[01]|[12]\d|0[1-9]|[1-9])`,
`%m = (1[0-2]|0[1-9]|[1-9])`, `%Y = \d{4}`, `%b`/`%B` the C-locale month
names case-insensitively, whitespace in the format as `\s+`, the whole
string anchored; the regex engine commits to the first (leftmost-greedy)
alternative that lets the rest of the format match, and the parsed date is
then validated as a calendar date (no backtracking after a validity
failure, mirroring `datetime` raising after the regex matched). -/

def monthAbbrevs : List (List Char) :=
  ["jan", "feb", "mar", "apr", "may", "jun",
   "jul", "aug", "sep", "oct", "nov", "dec"].map String.data

def monthFulls : List (List Char) :=
  ["january", "february", "march", "april", "may", "june", "july",
   "august", "september", "october", "november", "december"].map String.data

/-- Case-insensitive: drop lowercase `name` from the front of `s`. -/
def stripNameCI : List Char → List Char → Option (List Char)
  | [], s => some s
  | _ :: _, [] => none
  | n :: ns, c :: cs => if c.toLower == n then stripNameCI ns cs else none

/-- First month name (1-based index `i`) that prefixes `s`; no two C-locale
month names are prefixes of one another, so order is immaterial. -/
def monthFromGo (names : List (List Char)) (i : ℕ) (s : List Char) :
    Option (ℕ × List Char) :=
  match names with
  | [] => none
  | n :: ns =>
    match stripNameCI n s with
    | some r => some (i, r)
    | none => monthFromGo ns (i + 1) s

/-- `\s+` (at least one whitespace char, greedy). -/
def ws1 (s : List Char) : Option (List Char) :=
  match s with
  | c :: r => if isPySpace c then some (r.dropWhile isPySpace) else none
  | [] => none

def lit (c : Char) (s : List Char) : Option (List Char) :=
  match s with
  | c' :: r => if c' == c then some r else none
  | [] => none

/-- `%d` alternatives `3[01] | [12]\d | 0[1-9] | [1-9]` in regex order. -/
def dayOpts (s : List Char) : List (ℕ × List Char) :=
  (match s with
   | '3' :: c :: r => if c == '0' || c == '1' then [(30 + (c.toNat - 48), r)] else []
   | _ => []) ++
  (match s with
   | c1 :: c2 :: r =>
     if (c1 == '1' || c1 == '2') && c2.isDigit then
       [(10 * (c1.toNat - 48) + (c2.toNat - 48), r)]
     else []
   | _ => []) ++
  (match s with
   | '0' :: c :: r => if c.isDigit && c != '0' then [(c.toNat - 48, r)] else []
   | _ => []) ++
  (match s with
   | c :: r => if c.isDigit && c != '0' then [(c.toNat - 48, r)] else []
   | _ => [])

/-- `%m` alternatives `1[0-2] | 0[1-9] | [1-9]` in regex order. -/
def monthNumOpts (s : List Char) : List (ℕ × List Char) :=
  (match s with
   | '1' :: c :: r =>
     if c == '0' || c == '1' || c == '2' then [(10 + (c.toNat - 48), r)] else []
   | _ => []) ++
  (match s with
   | '0' :: c :: r => if c.isDigit && c != '0' then [(c.toNat - 48, r)] else []
   | _ => []) ++
  (match s with
   | c :: r => if c.isDigit && c != '0' then [(c.toNat - 48, r)] else []
   | _ => [])

/-- `%Y`: exactly four digits. -/
def yearOpt (s : List Char) : Option (ℕ × List Char) :=
  match s with
  | a :: b :: c :: d :: r =>
    if a.isDigit && b.isDigit && c.isDigit && d.isDigit then
      some (natOfDigits [a, b, c, d], r)
    else none
  | _ => none

def isLeap (y : ℕ) : Bool := y % 4 == 0 && (y % 100 != 0 || y % 400 == 0)

def daysInMonth (y m : ℕ) : ℕ :=
  if m = 2 then (if isLeap y then 29 else 28)
  else if m = 4 ∨ m = 6 ∨ m = 9 ∨ m = 11 then 30
  else 31

/-- `datetime(y, m, d)` constructor succeeds. -/
def validYMD (y m d : ℕ) : Bool :=
  1 ≤ y && y ≤ 9999 && 1 ≤ m && m ≤ 12 && 1 ≤ d && d ≤ daysInMonth y m

/-- `, \s+ %Y $` — the tail of the month-name formats after the day. -/
def commaWsYearEnd (r : List Char) : Option ℕ :=
  match lit ',' r with
  | none => none
  | some r3 =>
    match ws1 r3 with
    | none => none
    | some r4 =>
      match yearOpt r4 with
      | some (y, rest) => if rest.isEmpty then some y else none
      | none => none

/-- `"%b %d, %Y"` / `"%B %d, %Y"` depending on `names`. -/
def fmtMonthName (names : List (List Char)) (s : List Char) : Option (ℕ × ℕ × ℕ) :=
  match monthFromGo names 1 s with
  | none => none
  | some (m, r1) =>
    match ws1 r1 with
    | none => none
    | some r2 =>
      match (dayOpts r2).find? (fun dr => (commaWsYearEnd dr.2).isSome) with
      | none => none
      | some dr =>
        match commaWsYearEnd dr.2 with
        | none => none
        | some y => if validYMD y m dr.1 then some (y, m, dr.1) else none

def fmtSlashCombos (s : List Char) : List (ℕ × ℕ × List Char) :=
  (monthNumOpts s).map (fun mr =>
    match lit '/' mr.2 with
    | none => []
    | some r2 => (dayOpts r2).map (fun dr => (mr.1, dr.1, dr.2)))
  |>.flatten

/-- `/ %Y $` — tail of the slash format after the day. -/
def slashYearEnd (r : List Char) : Option ℕ :=
  match lit '/' r with
  | none => none
  | some r2 =>
    match yearOpt r2 with
    | some (y, rest) => if rest.isEmpty then some y else none
    | none => none

/-- `"%m/%d/%Y"`. -/
def fmtSlash (s : List Char) : Option (ℕ × ℕ × ℕ) :=
  match (fmtSlashCombos s).find? (fun x => (slashYearEnd x.2.2).isSome) with
  | none => none
  | some x =>
    match slashYearEnd x.2.2 with
    | none => none
    | some y => if validYMD y x.1 x.2.1 then some (y, x.1, x.2.1) else none

/-- `"%Y-%m-%d"`. -/
def fmtISO (s : List Char) : Option (ℕ × ℕ × ℕ) :=
  match yearOpt s with
  | none => none
  | some (y, r1) =>
    match lit '-' r1 with
    | none => none
    | some r2 =>
      let combos :=
        ((monthNumOpts r2).map (fun mr =>
          match lit '-' mr.2 with
          | none => []
          | some r3 => (dayOpts r3).map (fun dr => (mr.1, dr.1, dr.2)))).flatten
      match combos.find? (fun x => x.2.2.isEmpty) with
      | none => none
      | some x => if validYMD y x.1 x.2.1 then some (y, x.1, x.2.1) else none

def natToChars (n : ℕ) : List Char := Nat.toDigits 10 n

def padZeros (len : ℕ) (l : List Char) : List Char :=
  List.replicate (len - l.length) '0' ++ l

/-- `dt.strftime("%Y-%m-%d")` (zero-padded fields). -/
def fmtYMD (ymd : ℕ × ℕ × ℕ) : List Char :=
  padZeros 4 (natToChars ymd.1) ++ '-' :: (padZeros 2 (natToChars ymd.2.1) ++ '-' :: padZeros 2 (natToChars ymd.2.2))

/-- `parse_date(date_str)`: try the four formats in order on the stripped
string; on success return the normalized `YYYY-MM-DD`; if none matches,
return the original text unchanged (best-effort fallback); empty input
gives `none` (the source's `None`). -/
def parse_date (date_str : List Char) : Option (List Char) :=
  if date_str = [] then none
  else
    let t := wsStrip date_str
    match fmtMonthName monthAbbrevs t with
    | some ymd => some (fmtYMD ymd)
    | none =>
      match fmtMonthName monthFulls t with
      | some ymd => some (fmtYMD ymd)
      | none =>
        match fmtSlash t with
        | some ymd => some (fmtYMD ymd)
        | none =>
          match fmtISO t with
          | some ymd => some (fmtYMD ymd)
          | none => some date_str

/-! ## Material classifier (process-worthpoint-csvs.py, lines 17–47, 100–110) -/

/-- Python `needle in t` substring test on lowercased titles. -/
def hasSub (needle : String) (t : List Char) : Bool := decide (needle.data <:+: t)

/-- `MATERIAL_CONFIG`: filename-pattern key ↦ (material slug, title filter),
in source (dict-insertion) order. -/
def MATERIAL_CONFIG : List (List Char × (List Char × (List Char → Bool))) :=
  [ ("darwin-glass".data, ("darwin-glass".data, fun t => hasSub "darwin glass" t)),
    ("_darwin-glass_".data, ("darwin-glass".data, fun t => hasSub "darwin glass" t)),
    ("trinitite".data, ("trinitite".data, fun t => hasSub "trinitite" t && !hasSub "red" t)),
    ("australite".data, ("australite".data, fun t => hasSub "australite" t)),
    ("philippinite".data, ("philippinite".data, fun t => hasSub "philippinite" t)),
    ("georgiaite".data, ("georgiaite".data, fun t => hasSub "georgiaite" t)),
    ("bediasite".data, ("bediasite".data, fun t => hasSub "bediasite" t)),
    ("gibeon".data, ("gibeon-meteorite".data, fun t => hasSub "gibeon" t)),
    ("seymchan".data, ("seymchan-meteorite".data, fun t => hasSub "seymchan" t)),
    ("chelyabinsk".data, ("chelyabinsk-meteorite".data, fun t => hasSub "chelyabinsk" t)),
    ("canyon-diablo".data, ("canyon-diablo-meteorite".data, fun t => hasSub "canyon diablo" t)),
    ("fulgurite".data, ("fulgurite".data, fun t => hasSub "fulgurite" t)),
    ("osmium".data, ("osmium".data, fun t => hasSub "osmium" t)),
    ("iridium".data, ("iridium".data, fun t => hasSub "iridium" t)),
    ("gallium".data, ("gallium".data, fun t => hasSub "gallium" t)),
    ("bismuth".data, ("bismuth".data, fun t => hasSub "bismuth" t)),
    ("uranium-glass".data, ("uranium-glass".data, fun t => hasSub "uranium" t && hasSub "glass" t)),
    ("allende".data, ("allende-meteorite".data, fun t => hasSub "allende" t)),
    ("indochinite".data, ("indochinite".data, fun t => hasSub "indochinite" t)),
    ("nwa-martian".data, ("nwa-martian-meteorite".data,
      fun t => hasSub "martian" t || (hasSub "nwa" t && hasSub "mars" t) || hasSub "shergottite" t)),
    ("muonionalusta".data, ("muonionalusta-meteorite".data, fun t => hasSub "muonionalusta" t)),
    ("nwa-lunar".data, ("nwa-lunar-meteorite".data,
      fun t => hasSub "lunar" t || (hasSub "nwa" t && hasSub "moon" t))),
    ("libyan-desert-glass".data, ("libyan-desert-glass".data,
      fun t => hasSub "libyan" t || hasSub "ldg" t)),
    ("sikhote".data, ("sikhote-alin-meteorite".data, fun t => hasSub "sikhote" t)),
    ("campo".data, ("campo-del-cielo-meteorite".data, fun t => hasSub "campo" t)),
    ("kt-boundary".data, ("kpg-boundary".data,
      fun t => hasSub "kt" t || hasSub "k-t" t || hasSub "k-pg" t || hasSub "kpg" t ||
        hasSub "cretaceous" t || hasSub "boundary" t)),
    ("cretaceous-boundary".data, ("kpg-boundary".data,
      fun t => hasSub "cretaceous" t || hasSub "kt" t || hasSub "k-t" t || hasSub "k-pg" t ||
        hasSub "boundary" t)),
    ("impact-spherules".data, ("kpg-boundary".data,
      fun t => hasSub "spherule" t || hasSub "impact" t || hasSub "kt" t || hasSub "cretaceous" t)) ]

/-- `os.path.basename` (POSIX): the part after the last `/`. -/
def basename (s : List Char) : List Char := (s.splitOn '/').getLastD s

/-- `str.replace('.csv', '')`: delete every occurrence, scanning left to
right (case-sensitive, as in the source, which lowercases afterwards). -/
def stripCsv : List Char → List Char
  | '.' :: 'c' :: 's' :: 'v' :: rest => stripCsv rest
  | c :: rest => c :: stripCsv rest
  | [] => []

/-- `get_material_key(filename)`: exact config-key match on the cleaned
basename first, then the first key related to it by substring in either
direction, else `None`.  Parameterized by the config table so that the
empty-table behaviour (claim C8) is statable. -/
def get_material_key (config : List (List Char × α)) (filename : List Char) :
    Option (List Char) :=
  let base := lowerStr (stripCsv (basename filename))
  if config.any (fun kv => kv.1 == base) then some base
  else
    match config.find? (fun kv => decide (kv.1 <:+: base) || decide (base <:+: kv.1)) with
    | some kv => some kv.1
    | none => none

/-! ## Step 2 of `main`: title filter + global dedup
(process-worthpoint-csvs.py, lines 150–194) -/

structure RawRow where
  title : List Char
  price_usd : List Char
  price : List Char
  sale_date : List Char
  date : List Char
  weight_grams : List Char
deriving DecidableEq, Repr

/-- The body of the step-2 row loop: lowercase the title, apply the
ruleset's filter (rejection touches nothing), then test/insert the
60-char dedup key in the seen set.  Returns (kept?, new seen set).
The Python `set` is modelled by a list used only through membership
and insertion. -/
def step2Row (pred : List Char → Bool) (seen : List (List Char)) (title0 : List Char) :
    Bool × List (List Char) :=
  let title := lowerStr title0
  if !(pred title) then (false, seen)
  else
    let key := title.take 60
    if key ∈ seen then (false, seen)
    else (true, key :: seen)

/-- Step 2 over one file's rows, threading the shared seen set. -/
def step2Rows (pred : List Char → Bool) (seen : List (List Char)) :
    List RawRow → List RawRow × List (List Char)
  | [] => ([], seen)
  | row :: rows =>
    let r := step2Row pred seen row.title
    let rest := step2Rows pred r.2 rows
    (if r.1 then row :: rest.1 else rest.1, rest.2)

/-! ## Step 3 of `main`: normalization
(process-worthpoint-csvs.py, lines 197–242) -/

structure CanonicalSale where
  material_slug : List Char
  title : List Char
  price_usd : ℚ
  sale_date : Option (List Char)
  weight_grams : Option ℚ
  price_per_gram : Option ℚ
  source : List Char
deriving DecidableEq, Repr

/-- `row.get(a) or row.get(b)` on string fields (empty = falsy/missing). -/
def firstNonEmpty (a b : List Char) : List Char := if a = [] then b else a

/-- The body of the step-3 loop for one filtered row: reject when the price
is unparseable or falsy, soft-fail the date, take a pre-supplied parseable
nonzero weight else extract from the title, and derive price-per-gram for
a positive weight. -/
def normalize_row (material_slug : List Char) (row : RawRow) : Option CanonicalSale :=
  match parse_price (firstNonEmpty row.price_usd row.price) with
  | none => none
  | some price =>
    if price = 0 then none
    else
      let date := parse_date (firstNonEmpty row.sale_date row.date)
      let w0 : Option ℚ := if row.weight_grams = [] then none else floatParse row.weight_grams
      let weight : Option ℚ :=
        match w0 with
        | some v => if v = 0 then extract_weight row.title else some v
        | none => extract_weight row.title
      let ppg : Option ℚ :=
        match weight with
        | some w => if 0 < w then some (pyRound 2 (price / w)) else none
        | none => none
      some { material_slug := material_slug, title := row.title, price_usd := price,
             sale_date := date, weight_grams := weight, price_per_gram := ppg,
             source := "WorthPoint".data }

/-! ## The core pipeline of `main` (steps 2 and 3 composed)

`filtered_data` is a `defaultdict(list)` keyed by slug in first-insertion
order; step 3 iterates it in that order.  Warnings record the
`"No config, skipping"` branch. -/

structure SourceFile where
  name : List Char
  rows : List RawRow

/-- First-occurrence deduplication of slugs (dict key order). -/
def uniqKeepAux (seen : List (List Char)) : List (List Char) → List (List Char)
  | [] => []
  | a :: l => if a ∈ seen then uniqKeepAux seen l else a :: uniqKeepAux (a :: seen) l

def uniqKeep (l : List (List Char)) : List (List Char) := uniqKeepAux [] l

/-- Step 2 over all files: returns (warned file names, kept (slug, row)
pairs in processing order, final seen set). -/
def pipelineStep2 (config : List (List Char × (List Char × (List Char → Bool))))
    (files : List SourceFile) (seen : List (List Char)) :
    List (List Char) × List (List Char × RawRow) × List (List Char) :=
  match files with
  | [] => ([], [], seen)
  | f :: fs =>
    match get_material_key config f.name with
    | none =>
      let rest := pipelineStep2 config fs seen
      (f.name :: rest.1, rest.2.1, rest.2.2)
    | some key =>
      match config.find? (fun kv => kv.1 == key) with
      | none =>
        -- `MATERIAL_CONFIG[material_key]`: unreachable, `get_material_key`
        -- only returns keys of the table.
        let rest := pipelineStep2 config fs seen
        (f.name :: rest.1, rest.2.1, rest.2.2)
      | some kv =>
        let r := step2Rows kv.2.2 seen f.rows
        let rest := pipelineStep2 config fs r.2
        (rest.1, (r.1.map (fun row => (kv.2.1, row))) ++ rest.2.1, rest.2.2)

/-- Step 3 over the filtered rows, grouped by slug in first-appearance
order as the source's `defaultdict` iteration does. -/
def pipelineStep3 (filtered : List (List Char × RawRow)) : List CanonicalSale :=
  ((uniqKeep (filtered.map Prod.fst)).map (fun slug =>
    (filtered.filter (fun p => p.1 == slug)).filterMap (fun p => normalize_row p.1 p.2))).flatten

/-- The whole core transform: (warnings, canonical sales). -/
def pipelineW (config : List (List Char × (List Char × (List Char → Bool))))
    (files : List SourceFile) : List (List Char) × List CanonicalSale :=
  let r := pipelineStep2 config files []
  (r.1, pipelineStep3 r.2.1)

/-! ## `load_merged_csv` (import-worthpoint-to-supabase.py, lines 27–51) -/

structure CsvRow where
  material_slug : List Char
  price_per_gram : List Char
  sale_date : List Char
deriving DecidableEq, Repr

structure PRecord where
  material_slug : List Char
  price_per_gram : ℚ
  sale_date : List Char
deriving DecidableEq, Repr

/-- One row of the merged CSV: skipped when `price_per_gram` or `sale_date`
is empty, when the float parse fails, or when the parsed value is outside
`(0, 50000]`. -/
def loadRow (row : CsvRow) : Option PRecord :=
  if row.price_per_gram = [] ∨ row.sale_date = [] then none
  else
    match floatParse row.price_per_gram with
    | none => none
    | some ppg =>
      if ppg ≤ 0 ∨ 50000 < ppg then none
      else some ⟨row.material_slug, ppg, row.sale_date⟩

def load_merged_csv (rows : List CsvRow) : List PRecord := rows.filterMap loadRow

/-! ## `calculate_monthly_medians` (import-worthpoint-to-supabase.py, lines 54–81) -/

abbrev MKey := List Char × List Char

/-- The grouping key `(material_slug, sale_date[:7])`, guarded by the
source's `if date and len(date) >= 7`. -/
def recordKey (r : PRecord) : Option MKey :=
  if r.sale_date ≠ [] ∧ 7 ≤ r.sale_date.length then
    some (r.material_slug, r.sale_date.take 7)
  else none

/-- The price list of one `(material, month)` group, in input order
(the `defaultdict` append order). -/
def groupPrices (rs : List PRecord) (k : MKey) : List ℚ :=
  rs.filterMap (fun r => if recordKey r = some k then some r.price_per_gram else none)

/-- The aggregator's date guard `if date and len(date) >= 7` as a Boolean
predicate on records. -/
def dateOK (r : PRecord) : Bool := decide (r.sale_date ≠ [] ∧ 7 ≤ r.sale_date.length)

/-- Python tuple-of-strings comparison (lexicographic, code-point order). -/
def keyLE (a b : MKey) : Prop := a.1 < b.1 ∨ (a.1 = b.1 ∧ a.2 ≤ b.2)

def keyLT (a b : MKey) : Prop := a.1 < b.1 ∨ (a.1 = b.1 ∧ a.2 < b.2)

instance : DecidableRel keyLE := fun a b => by unfold keyLE; infer_instance

instance : DecidableRel keyLT := fun a b => by unfold keyLT; infer_instance

/-- `statistics.median`: middle of the sorted data, or the mean of the two
middle values for even length.  (`statistics.median` raises on `[]`; the
source guards every call with `if prices:`, so the `[]` value is never
used.) -/
def median (xs : List ℚ) : ℚ :=
  let s := List.insertionSort (· ≤ ·) xs
  let n := s.length
  if n % 2 = 1 then s.getD (n / 2) 0
  else (s.getD (n / 2 - 1) 0 + s.getD (n / 2) 0) / 2

/-- One output record.  The source emits `'source': f"WorthPoint (n={...})"`;
the sample count it encodes is kept as `sample_count`, and the constant
`'price_per': 'gram'` as `price_per`. -/
structure MonthlyAggregate where
  material_slug : List Char
  price_usd : ℚ
  price_per : List Char
  sample_count : ℕ
  recorded_at : List Char
deriving DecidableEq, Repr

/-- The aggregate of one group (`if prices:` guard included). -/
def mkAggregate (rs : List PRecord) (k : MKey) : Option MonthlyAggregate :=
  let prices := groupPrices rs k
  if prices = [] then none
  else some { material_slug := k.1, price_usd := pyRound 2 (median prices),
              price_per := "gram".data, sample_count := prices.length,
              recorded_at := k.2 ++ "-15".data }

/-- `calculate_monthly_medians(records)`: group by `(material_slug,
sale_date[:7])`, iterate the groups in sorted key order (`sorted(
grouped.items())` — so the grouping's insertion order is irrelevant and the
distinct keys are taken in sorted order), emit one aggregate per non-empty
group. -/
def calculate_monthly_medians (rs : List PRecord) : List MonthlyAggregate :=
  (List.insertionSort keyLE ((rs.filterMap recordKey).dedup)).filterMap (mkAggregate rs)

/-! ## Claim-side definitions -/

/-- Modelled from claim C6's wording (not from the source): the dedup
membership test and key insertion evaluated *before* the classification
predicate. -/
def step2Row_dedupFirst (pred : List Char → Bool) (seen : List (List Char))
    (title0 : List Char) : Bool × List (List Char) :=
  let title := lowerStr title0
  let key := title.take 60
  if key ∈ seen then (false, seen)
  else if pred title then (true, key :: seen)
  else (false, key :: seen)

/-- Modelled from claim C5's wording: the value one ordered unit rule
contributes — its first match converted to grams, kept only inside the
`(0.01, 100000)` bound. -/
def ruleValue (title : List Char) (pm : RE × ℚ) : Option ℚ :=
  match searchFrom pm.1 title with
  | none => none
  | some cap =>
    let w := parseNum cap * pm.2
    if 1/100 < w ∧ w < 100000 then some (pyRound 3 w) else none

/-- The group key an emitted aggregate belongs to, recovered from its
fields (`recorded_at = month ++ "-15"`, and every month key has length 7
when the input dates do). -/
def aggKey (a : MonthlyAggregate) : MKey := (a.material_slug, a.recorded_at.take 7)

/-- The aggregate `mkAggregate` emits for a non-empty group (used to state
and prove the aggregator's correctness). -/
def aggOf (rs : List PRecord) (k : MKey) : MonthlyAggregate :=
  { material_slug := k.1, price_usd := pyRound 2 (median (groupPrices rs k)),
    price_per := "gram".data, sample_count := (groupPrices rs k).length,
    recorded_at := k.2 ++ "-15".data }

/-! ## Concrete inputs used in witnesses and counterexamples -/

/-- The `trinitite` ruleset's title filter (from `MATERIAL_CONFIG`). -/
def trinPred : List Char → Bool :=
  fun t => hasSub "trinitite" t && !hasSub "red" t

/-- A title filter that plainly requires the word `trinitite`. -/
def plainTrin : List Char → Bool := fun t => hasSub "trinitite" t

/-- A listing whose pre-supplied `weight_grams` field is the negative
string `-5`. -/
def rowNeg : RawRow :=
  { title := "x".data, price_usd := "50".data, price := [],
    sale_date := [], date := [], weight_grams := "-5".data }

/-- A listing with a title-derived mass `5` g. -/
def rowFiveG : RawRow :=
  { title := "5g x".data, price_usd := "50".data, price := [],
    sale_date := [], date := [], weight_grams := [] }

/-- A listing whose only mass is the out-of-bounds `0.005` g in the title. -/
def rowTiny : RawRow :=
  { title := "tiny 0.005g dust".data, price_usd := "50".data, price := [],
    sale_date := [], date := [], weight_grams := [] }

/-- A listing with pre-supplied out-of-bounds mass `0.005`. -/
def rowPreTiny : RawRow :=
  { title := "x".data, price_usd := "50".data, price := [],
    sale_date := [], date := [], weight_grams := "0.005".data }

/-- A listing whose in-bounds price and mass give a price-per-gram far
above `50000`. -/
def rowBig : RawRow :=
  { title := "fragment".data, price_usd := "999999".data, price := [],
    sale_date := [], date := [], weight_grams := "0.02".data }

/-- A listing with no price at all. -/
def rowNoPrice : RawRow :=
  { title := "trinitite piece".data, price_usd := [], price := [],
    sale_date := [], date := [], weight_grams := [] }

/-- A merged-CSV row whose `sale_date` is the unparseable text `Unknown`. -/
def csvU : CsvRow :=
  { material_slug := "m".data, price_per_gram := "10".data, sale_date := "Unknown".data }

/-- A merged-CSV row whose price-per-gram `60000` exceeds the `50000` cap. -/
def csv60k : CsvRow :=
  { material_slug := "m".data, price_per_gram := "60000".data, sale_date := "2022-05-01".data }

/-- A merged-CSV row carrying `rowBig`'s price-per-gram as the CSV writer
prints it. -/
def csvBig : CsvRow :=
  { material_slug := "m".data, price_per_gram := "49999950.0".data,
    sale_date := "2022-05-01".data }

/-- Two canonical records in the same material and month whose
price-per-gram values average to a third decimal. -/
def rsTie : List PRecord :=
  [ { material_slug := "m".data, price_per_gram := 1, sale_date := "2020-01-05".data },
    { material_slug := "m".data, price_per_gram := 101/100, sale_date := "2020-01-20".data } ]

/-- Four canonical records in one material and month. -/
def rs4 : List PRecord :=
  [ { material_slug := "m".data, price_per_gram := 1, sale_date := "2021-03-02".data },
    { material_slug := "m".data, price_per_gram := 2, sale_date := "2021-03-10".data },
    { material_slug := "m".data, price_per_gram := 3, sale_date := "2021-03-11".data },
    { material_slug := "m".data, price_per_gram := 4, sale_date := "2021-03-20".data } ]

/-- The single record loaded from `csvU`. -/
def recU : PRecord :=
  { material_slug := "m".data, price_per_gram := 10, sale_date := "Unknown".data }

/-- A source file under an empty ruleset table. -/
def fileC8 : SourceFile :=
  { name := "darwin-glass.csv".data,
    rows := [ { title := "Darwin Glass tektite 5.2g sold".data, price_usd := "$50.00".data,
                price := [], sale_date := "Jan 5, 2021".data, date := [], weight_grams := [] } ] }

/-! ## Helper lemmas: the `extract_weight` pattern loop -/

theorem go_nil (title : List Char) : extract_weight_go [] title = none := rfl

theorem go_cons_found {p : RE} {mult : ℚ} {ps : List (RE × ℚ)} {title cap : List Char}
    (h : searchFrom p title = some cap)
    (hb : 1/100 < parseNum cap * mult ∧ parseNum cap * mult < 100000) :
    extract_weight_go ((p, mult) :: ps) title = some (pyRound 3 (parseNum cap * mult)) := by
  simp only [extract_weight_go, h]
  rw [if_pos hb]

theorem go_cons_none {p : RE} {mult : ℚ} {ps : List (RE × ℚ)} {title : List Char}
    (h : searchFrom p title = none) :
    extract_weight_go ((p, mult) :: ps) title = extract_weight_go ps title := by
  simp [extract_weight_go, h]

theorem go_cons_oob {p : RE} {mult : ℚ} {ps : List (RE × ℚ)} {title cap : List Char}
    (h : searchFrom p title = some cap)
    (hb : ¬(1/100 < parseNum cap * mult ∧ parseNum cap * mult < 100000)) :
    extract_weight_go ((p, mult) :: ps) title = extract_weight_go ps title := by
  simp only [extract_weight_go, h]
  rw [if_neg hb]

/-- Any weight the extractor returns is the 3-decimal rounding of a value
strictly inside `(0.01, 100000)`. -/
theorem extract_weight_go_bounds :
    ∀ (ps : List (RE × ℚ)) (t : List Char) (w : ℚ), extract_weight_go ps t = some w →
      ∃ w₀, 1/100 < w₀ ∧ w₀ < 100000 ∧ w = pyRound 3 w₀ := by
  intro ps
  induction ps with
  | nil => intro t w h; simp [extract_weight_go] at h
  | cons pm ps ih =>
    obtain ⟨p, m⟩ := pm
    intro t w h
    simp only [extract_weight_go] at h
    split at h
    · split at h
      · rename_i cap heq hb
        exact ⟨parseNum cap * m, hb.1, hb.2, (Option.some.inj h).symm⟩
      · exact ih t w h
    · exact ih t w h

/-! ## Helper lemmas: concrete evaluations

Character-level facts are settled by `decide`; the rational arithmetic by
`norm_num`. -/

theorem pn_52 : parseNum "5.2".data = 26/5 := by
  norm_num +decide [parseNum,
    (by decide : natOfDigits ['5'] = 5), (by decide : natOfDigits ['2'] = 2)]

theorem pn_12 : parseNum "12".data = 12 := by
  norm_num +decide [parseNum, (by decide : natOfDigits ['1', '2'] = 12)]

theorem pn_2 : parseNum "2".data = 2 := by
  norm_num +decide [parseNum, (by decide : natOfDigits ['2'] = 2)]

theorem pn_15 : parseNum "1.5".data = 3/2 := by
  norm_num +decide [parseNum,
    (by decide : natOfDigits ['1'] = 1), (by decide : natOfDigits ['5'] = 5)]

theorem pn_5 : parseNum "5".data = 5 := by
  norm_num +decide [parseNum, (by decide : natOfDigits ['5'] = 5)]

theorem pn_0005 : parseNum "0.005".data = 1/200 := by
  norm_num +decide [parseNum,
    (by decide : natOfDigits ['0'] = 0), (by decide : natOfDigits ['0', '0', '5'] = 5)]

theorem ew_52g : extract_weight "5.2g".data = some (26/5) := by
  rw [extract_weight, patterns,
    go_cons_found (by decide : searchFrom pat1 "5.2g".data = some "5.2".data)
      (by rw [pn_52]; norm_num), pn_52]
  norm_num [pyRound, halfEvenInt]

theorem ew_52grams : extract_weight "5.2 grams".data = some (26/5) := by
  rw [extract_weight, patterns,
    go_cons_found (by decide : searchFrom pat1 "5.2 grams".data = some "5.2".data)
      (by rw [pn_52]; norm_num), pn_52]
  norm_num [pyRound, halfEvenInt]

theorem ew_12ct : extract_weight "12ct".data = some (12/5) := by
  rw [extract_weight, patterns,
    go_cons_none (by decide : searchFrom pat1 "12ct".data = none),
    go_cons_none (by decide : searchFrom pat2 "12ct".data = none),
    go_cons_none (by decide : searchFrom pat3 "12ct".data = none),
    go_cons_found (by decide : searchFrom pat4 "12ct".data = some "12".data)
      (by rw [pn_12]; norm_num), pn_12]
  norm_num [pyRound, halfEvenInt]

theorem ew_2oz : extract_weight "2oz".data = some (567/10) := by
  rw [extract_weight, patterns,
    go_cons_none (by decide : searchFrom pat1 "2oz".data = none),
    go_cons_none (by decide : searchFrom pat2 "2oz".data = none),
    go_cons_none (by decide : searchFrom pat3 "2oz".data = none),
    go_cons_none (by decide : searchFrom pat4 "2oz".data = none),
    go_cons_none (by decide : searchFrom pat5 "2oz".data = none),
    go_cons_found (by decide : searchFrom pat6 "2oz".data = some "2".data)
      (by rw [pn_2]; norm_num), pn_2]
  norm_num [pyRound, halfEvenInt]

theorem ew_15kg : extract_weight "1.5kg".data = some 1500 := by
  rw [extract_weight, patterns,
    go_cons_none (by decide : searchFrom pat1 "1.5kg".data = none),
    go_cons_none (by decide : searchFrom pat2 "1.5kg".data = none),
    go_cons_none (by decide : searchFrom pat3 "1.5kg".data = none),
    go_cons_none (by decide : searchFrom pat4 "1.5kg".data = none),
    go_cons_none (by decide : searchFrom pat5 "1.5kg".data = none),
    go_cons_none (by decide : searchFrom pat6 "1.5kg".data = none),
    go_cons_found (by decide : searchFrom pat7 "1.5kg".data = some "1.5".data)
      (by rw [pn_15]; norm_num), pn_15]
  norm_num [pyRound, halfEvenInt]

theorem ew_unitless : extract_weight "5.2".data = none := by
  rw [extract_weight, patterns,
    go_cons_none (by decide : searchFrom pat1 "5.2".data = none),
    go_cons_none (by decide : searchFrom pat2 "5.2".data = none),
    go_cons_none (by decide : searchFrom pat3 "5.2".data = none),
    go_cons_none (by decide : searchFrom pat4 "5.2".data = none),
    go_cons_none (by decide : searchFrom pat5 "5.2".data = none),
    go_cons_none (by decide : searchFrom pat6 "5.2".data = none),
    go_cons_none (by decide : searchFrom pat7 "5.2".data = none),
    go_cons_none (by decide : searchFrom pat8 "5.2".data = none)]
  exact go_nil _

theorem ew_tiny : extract_weight "tiny 0.005g dust".data = none := by
  rw [extract_weight, patterns,
    go_cons_oob (by decide : searchFrom pat1 "tiny 0.005g dust".data = some "0.005".data)
      (by rw [pn_0005]; norm_num),
    go_cons_none (by decide : searchFrom pat2 "tiny 0.005g dust".data = none),
    go_cons_none (by decide : searchFrom pat3 "tiny 0.005g dust".data = none),
    go_cons_none (by decide : searchFrom pat4 "tiny 0.005g dust".data = none),
    go_cons_none (by decide : searchFrom pat5 "tiny 0.005g dust".data = none),
    go_cons_none (by decide : searchFrom pat6 "tiny 0.005g dust".data = none),
    go_cons_none (by decide : searchFrom pat7 "tiny 0.005g dust".data = none),
    go_cons_none (by decide : searchFrom pat8 "tiny 0.005g dust".data = none)]
  exact go_nil _

theorem ew_fiveG : extract_weight "5g x".data = some 5 := by
  rw [extract_weight, patterns,
    go_cons_found (by decide : searchFrom pat1 "5g x".data = some "5".data)
      (by rw [pn_5]; norm_num), pn_5]
  norm_num [pyRound, halfEvenInt]

theorem fp_neg5 : floatParse "-5".data = some (-5) := by
  norm_num +decide [floatParse, floatCore, expPart, expTail, wsStrip, isPySpace, wsChars,
    (by decide : natOfDigits ['5'] = 5)]

theorem fp_0005 : floatParse "0.005".data = some (1/200) := by
  norm_num +decide [floatParse, floatCore, expPart, expTail, wsStrip, isPySpace, wsChars,
    (by decide : natOfDigits ['0'] = 0), (by decide : natOfDigits ['0', '0', '5'] = 5)]

theorem fp_002 : floatParse "0.02".data = some (1/50) := by
  norm_num +decide [floatParse, floatCore, expPart, expTail, wsStrip, isPySpace, wsChars,
    (by decide : natOfDigits ['0'] = 0), (by decide : natOfDigits ['0', '2'] = 2)]

theorem fp_10 : floatParse "10".data = some 10 := by
  norm_num +decide [floatParse, floatCore, expPart, expTail, wsStrip, isPySpace, wsChars,
    (by decide : natOfDigits ['1', '0'] = 10)]

theorem fp_60000 : floatParse "60000".data = some 60000 := by
  norm_num +decide [floatParse, floatCore, expPart, expTail, wsStrip, isPySpace, wsChars,
    (by decide : natOfDigits ['6', '0', '0', '0', '0'] = 60000)]

theorem fp_big : floatParse "49999950.0".data = some 49999950 := by
  norm_num +decide [floatParse, floatCore, expPart, expTail, wsStrip, isPySpace, wsChars,
    (by decide : natOfDigits ['4', '9', '9', '9', '9', '9', '5', '0'] = 49999950),
    (by decide : natOfDigits ['0'] = 0)]

theorem pp_50 : parse_price "50".data = some 50 := by
  norm_num +decide [parse_price, floatParse, floatCore, expPart, expTail, wsStrip, isPySpace,
    wsChars, pyRound, halfEvenInt, (by decide : natOfDigits ['5', '0'] = 50)]

theorem pp_999999 : parse_price "999999".data = some 999999 := by
  norm_num +decide [parse_price, floatParse, floatCore, expPart, expTail, wsStrip, isPySpace,
    wsChars, pyRound, halfEvenInt,
    (by decide : natOfDigits ['9', '9', '9', '9', '9', '9'] = 999999)]

theorem pd_unknown : parse_date "Unknown".data = some "Unknown".data := by decide

theorem nr_rowNeg : normalize_row "m".data rowNeg = some
    { material_slug := "m".data, title := "x".data, price_usd := 50, sale_date := none,
      weight_grams := some (-5), price_per_gram := none, source := "WorthPoint".data } := by
  have hp : parse_price ['5', '0'] = some 50 := pp_50
  have hw : floatParse ['-', '5'] = some (-5) := fp_neg5
  norm_num +decide [normalize_row, firstNonEmpty, rowNeg, hp, hw]

theorem nr_rowFiveG : normalize_row "m".data rowFiveG = some
    { material_slug := "m".data, title := "5g x".data, price_usd := 50, sale_date := none,
      weight_grams := some 5, price_per_gram := some 10, source := "WorthPoint".data } := by
  have hp : parse_price ['5', '0'] = some 50 := pp_50
  have he : extract_weight ['5', 'g', ' ', 'x'] = some 5 := ew_fiveG
  norm_num +decide [normalize_row, firstNonEmpty, rowFiveG, hp, he, pyRound, halfEvenInt]

theorem nr_rowTiny : normalize_row "m".data rowTiny = some
    { material_slug := "m".data, title := "tiny 0.005g dust".data, price_usd := 50,
      sale_date := none, weight_grams := none, price_per_gram := none,
      source := "WorthPoint".data } := by
  have hp : parse_price ['5', '0'] = some 50 := pp_50
  have he : extract_weight
      ['t', 'i', 'n', 'y', ' ', '0', '.', '0', '0', '5', 'g', ' ', 'd', 'u', 's', 't'] = none :=
    ew_tiny
  norm_num +decide [normalize_row, firstNonEmpty, rowTiny, hp, he]

theorem nr_rowPreTiny : normalize_row "m".data rowPreTiny = some
    { material_slug := "m".data, title := "x".data, price_usd := 50, sale_date := none,
      weight_grams := some (1/200), price_per_gram := some 10000,
      source := "WorthPoint".data } := by
  have hp : parse_price ['5', '0'] = some 50 := pp_50
  have hw : floatParse ['0', '.', '0', '0', '5'] = some (1/200) := fp_0005
  norm_num +decide [normalize_row, firstNonEmpty, rowPreTiny, hp, hw, pyRound, halfEvenInt]

theorem nr_rowBig : normalize_row "m".data rowBig = some
    { material_slug := "m".data, title := "fragment".data, price_usd := 999999,
      sale_date := none, weight_grams := some (1/50), price_per_gram := some 49999950,
      source := "WorthPoint".data } := by
  have hp : parse_price ['9', '9', '9', '9', '9', '9'] = some 999999 := pp_999999
  have hw : floatParse ['0', '.', '0', '2'] = some (1/50) := fp_002
  norm_num +decide [normalize_row, firstNonEmpty, rowBig, hp, hw, pyRound, halfEvenInt]

theorem lr_csvU : loadRow csvU = some recU := by
  have h10 : floatParse ['1', '0'] = some 10 := fp_10
  norm_num +decide [loadRow, csvU, recU, h10]

theorem lr_csv60k : loadRow csv60k = none := by
  have h : floatParse ['6', '0', '0', '0', '0'] = some 60000 := fp_60000
  norm_num +decide [loadRow, csv60k, h]

theorem lr_csvBig : loadRow csvBig = none := by
  have h : floatParse ['4', '9', '9', '9', '9', '9', '5', '0', '.', '0'] = some 49999950 := fp_big
  norm_num +decide [loadRow, csvBig, h]

theorem med_singleton : median [10] = 10 := rfl

theorem med_tie : median [1, 101/100] = 201/200 := by
  have hs : List.insertionSort (α := ℚ) (· ≤ ·) [1, 101/100] = [1, 101/100] := by
    norm_num [List.insertionSort, List.orderedInsert]
  simp [median, hs]
  norm_num

theorem med_1234 : median [1, 2, 3, 4] = 5/2 := by
  have hs : List.insertionSort (α := ℚ) (· ≤ ·) [1, 2, 3, 4] = [1, 2, 3, 4] := by
    norm_num [List.insertionSort, List.orderedInsert]
  simp [median, hs]
  norm_num

theorem med_123 : median [1, 2, 3] = 2 := by
  have hs : List.insertionSort (α := ℚ) (· ≤ ·) [1, 2, 3] = [1, 2, 3] := by
    norm_num [List.insertionSort, List.orderedInsert]
  simp [median, hs]

theorem calc_U : calculate_monthly_medians [recU] =
    [{ material_slug := "m".data, price_usd := 10, price_per := "gram".data,
       sample_count := 1, recorded_at := "Unknown-15".data }] := by
  have h1 : (([recU].filterMap recordKey).dedup) = [("m".data, "Unknown".data)] := by decide
  have h3 : List.insertionSort keyLE [(("m".data : List Char), ("Unknown".data : List Char))] =
      [("m".data, "Unknown".data)] := rfl
  have hg : groupPrices [recU] ("m".data, "Unknown".data) = [10] := rfl
  unfold calculate_monthly_medians
  rw [h1, h3]
  simp +decide [List.filterMap_cons, mkAggregate, hg, med_singleton]
  norm_num [pyRound, halfEvenInt]

theorem calc_tie : calculate_monthly_medians rsTie =
    [{ material_slug := "m".data, price_usd := 1, price_per := "gram".data,
       sample_count := 2, recorded_at := "2020-01-15".data }] := by
  have h1 : ((rsTie.filterMap recordKey).dedup) = [("m".data, "2020-01".data)] := by decide
  have h3 : List.insertionSort keyLE [(("m".data : List Char), ("2020-01".data : List Char))] =
      [("m".data, "2020-01".data)] := rfl
  have hg : groupPrices rsTie ("m".data, "2020-01".data) = [1, 101/100] := rfl
  unfold calculate_monthly_medians
  rw [h1, h3]
  simp +decide [List.filterMap_cons, mkAggregate, hg, med_tie]
  norm_num [pyRound, halfEvenInt]

/-! ## Helper lemmas: the step-2 dedup loop -/

theorem step2Rows_append (pred : List Char → Bool) :
    ∀ (as bs : List RawRow) (s : List (List Char)),
      step2Rows pred s (as ++ bs) =
        ((step2Rows pred s as).1 ++ (step2Rows pred (step2Rows pred s as).2 bs).1,
         (step2Rows pred (step2Rows pred s as).2 bs).2) := by
  intro as
  induction as with
  | nil => intro bs s; simp [step2Rows]
  | cons a as ih =>
    intro bs s
    simp only [List.cons_append, step2Rows, List.append_eq]
    rw [ih]
    cases (step2Row pred s a.title).1 <;> simp

theorem step2Row_seen_sup (pred : List Char → Bool) (s : List (List Char)) (t k : List Char)
    (h : k ∈ s) : k ∈ (step2Row pred s t).2 := by
  unfold step2Row
  by_cases hp : pred (lowerStr t) <;> simp only [hp, Bool.not_true, Bool.not_false, if_true,
    if_false, Bool.false_eq_true, ite_false, ite_true]
  · split
    · exact h
    · exact List.mem_cons_of_mem _ h
  · exact h

theorem step2Rows_seen_mono (pred : List Char → Bool) :
    ∀ (rows : List RawRow) (s : List (List Char)) (k : List Char),
      k ∈ s → k ∈ (step2Rows pred s rows).2 := by
  intro rows
  induction rows with
  | nil => intro s k h; exact h
  | cons row rows ih =>
    intro s k h
    exact ih _ _ (step2Row_seen_sup pred s row.title k h)

theorem step2Rows_covers (pred : List Char → Bool) :
    ∀ (rows : List RawRow) (s : List (List Char)) (row : RawRow), row ∈ rows →
      pred (lowerStr row.title) = true →
      (lowerStr row.title).take 60 ∈ (step2Rows pred s rows).2 := by
  intro rows
  induction rows with
  | nil => intro s row h; cases h
  | cons r rows ih =>
    intro s row hmem hp
    rcases List.mem_cons.mp hmem with rfl | hmem
    · simp only [step2Rows]
      apply step2Rows_seen_mono
      unfold step2Row
      simp only [hp, Bool.not_true, Bool.false_eq_true, if_false]
      split
      · next hk => exact hk
      · exact List.mem_cons_self _ _
    · exact ih _ _ hmem hp

theorem step2Rows_stable (pred : List Char → Bool) :
    ∀ (rows : List RawRow) (s : List (List Char)),
      (∀ row ∈ rows, pred (lowerStr row.title) = true → (lowerStr row.title).take 60 ∈ s) →
      step2Rows pred s rows = ([], s) := by
  intro rows
  induction rows with
  | nil => intro s _; rfl
  | cons row rows ih =>
    intro s h
    have hr : step2Row pred s row.title = (false, s) := by
      unfold step2Row
      by_cases hp : pred (lowerStr row.title)
      · simp only [hp, Bool.not_true, Bool.false_eq_true, if_false]
        rw [if_pos (h row (List.mem_cons_self _ _) hp)]
      · simp [hp]
    simp only [step2Rows, hr]
    rw [ih s (fun r hr hp => h r (List.mem_cons_of_mem _ hr) hp)]
    simp

/-! ## Helper lemmas: the monthly aggregator -/

instance : IsTotal MKey keyLE where
  total a b := by
    rcases lt_trichotomy a.1 b.1 with h | h | h
    · exact Or.inl (Or.inl h)
    · rcases le_total a.2 b.2 with h2 | h2
      · exact Or.inl (Or.inr ⟨h, h2⟩)
      · exact Or.inr (Or.inr ⟨h.symm, h2⟩)
    · exact Or.inr (Or.inl h)

instance : IsTrans MKey keyLE where
  trans a b c hab hbc := by
    rcases hab with h1 | ⟨e1, le1⟩
    · rcases hbc with h2 | ⟨e2, le2⟩
      · exact Or.inl (h1.trans h2)
      · exact Or.inl (by rw [← e2]; exact h1)
    · rcases hbc with h2 | ⟨e2, le2⟩
      · exact Or.inl (by rw [e1]; exact h2)
      · exact Or.inr ⟨e1.trans e2, le1.trans le2⟩

theorem keyLT_of_le_ne {a b : MKey} (h : keyLE a b) (hne : a ≠ b) : keyLT a b := by
  rcases h with h1 | ⟨e1, le2⟩
  · exact Or.inl h1
  · refine Or.inr ⟨e1, lt_of_le_of_ne le2 ?_⟩
    intro he
    exact hne (Prod.ext e1 he)

/-- Sorting a duplicate-free key list with `keyLE` yields a strictly
ascending list. -/
theorem pairwise_keyLT_insertionSort (l : List MKey) (h : l.Nodup) :
    List.Pairwise keyLT (List.insertionSort keyLE l) := by
  have hs : List.Sorted keyLE (List.insertionSort keyLE l) :=
    List.sorted_insertionSort keyLE l
  have hnd : (List.insertionSort keyLE l).Nodup :=
    ((List.perm_insertionSort keyLE l).nodup_iff).mpr h
  exact (List.Pairwise.and hs hnd).imp (fun hp => keyLT_of_le_ne hp.1 hp.2)

theorem filterMap_eq_map_on {α β : Type} {f : α → Option β} {g : α → β} :
    ∀ {l : List α}, (∀ a ∈ l, f a = some (g a)) → l.filterMap f = l.map g := by
  intro l
  induction l with
  | nil => intro _; rfl
  | cons a l ih =>
    intro h
    simp only [List.filterMap_cons, h a (List.mem_cons_self a l), List.map_cons,
      ih (fun x hx => h x (List.mem_cons_of_mem a hx))]

theorem mkAggregate_of_ne_nil {rs : List PRecord} {k : MKey} (h : groupPrices rs k ≠ []) :
    mkAggregate rs k = some (aggOf rs k) := by
  simp [mkAggregate, aggOf, h]

theorem key_mem_iff {rs : List PRecord} {k : MKey} :
    k ∈ List.insertionSort keyLE ((rs.filterMap recordKey).dedup) ↔
      ∃ r ∈ rs, recordKey r = some k := by
  rw [(List.perm_insertionSort keyLE _).mem_iff, List.mem_dedup, List.mem_filterMap]

theorem recordKey_some {r : PRecord} {k : MKey} (h : recordKey r = some k) :
    k = (r.material_slug, r.sale_date.take 7) ∧ r.sale_date ≠ [] ∧ 7 ≤ r.sale_date.length := by
  unfold recordKey at h
  split at h
  · exact ⟨(Option.some.inj h).symm, by assumption⟩
  · cases h

theorem key_month_len {rs : List PRecord} {k : MKey} (h : ∃ r ∈ rs, recordKey r = some k) :
    k.2.length = 7 := by
  obtain ⟨r, _, hr⟩ := h
  obtain ⟨rfl, _, h7⟩ := recordKey_some hr
  simp only [List.length_take]
  omega

theorem groupPrices_ne_nil {rs : List PRecord} {k : MKey}
    (h : ∃ r ∈ rs, recordKey r = some k) : groupPrices rs k ≠ [] := by
  obtain ⟨r, hr, hk⟩ := h
  have hm : r.price_per_gram ∈ groupPrices rs k :=
    List.mem_filterMap.mpr ⟨r, hr, by simp [hk]⟩
  exact List.ne_nil_of_mem hm

theorem aggKey_aggOf {rs : List PRecord} {k : MKey} (h7 : k.2.length = 7) :
    aggKey (aggOf rs k) = k := by
  show (k.1, (k.2 ++ "-15".data).take 7) = k
  rw [List.take_left' h7]

/-- The aggregator's output is exactly the per-key aggregates of the sorted
distinct keys. -/
theorem calc_eq_map (rs : List PRecord) :
    calculate_monthly_medians rs =
      (List.insertionSort keyLE ((rs.filterMap recordKey).dedup)).map (aggOf rs) := by
  unfold calculate_monthly_medians
  exact filterMap_eq_map_on
    (fun k hk => mkAggregate_of_ne_nil (groupPrices_ne_nil (key_mem_iff.mp hk)))

/-! ## Helper lemmas: the date gate of the aggregator -/

theorem recordKey_none {r : PRecord} (h : ¬(r.sale_date ≠ [] ∧ 7 ≤ r.sale_date.length)) :
    recordKey r = none := by
  simp [recordKey, h]

theorem recordKey_eq_none_of_bad {r : PRecord} (h : dateOK r = false) :
    recordKey r = none := by
  unfold recordKey
  rw [if_neg (of_decide_eq_false h)]

theorem filterMap_recordKey_filter (rs : List PRecord) :
    (rs.filter dateOK).filterMap recordKey = rs.filterMap recordKey := by
  induction rs with
  | nil => rfl
  | cons r rs ih =>
    rw [List.filter_cons]
    cases h : dateOK r
    · rw [if_neg (by simp [h])]
      simp only [List.filterMap_cons, recordKey_eq_none_of_bad h, ih]
    · rw [if_pos (by simp)]
      simp only [List.filterMap_cons, ih]

theorem groupPrices_filter (rs : List PRecord) (k : MKey) :
    groupPrices (rs.filter dateOK) k = groupPrices rs k := by
  unfold groupPrices
  induction rs with
  | nil => rfl
  | cons r rs ih =>
    rw [List.filter_cons]
    cases h : dateOK r
    · rw [if_neg (by simp [h])]
      simp only [List.filterMap_cons, recordKey_eq_none_of_bad h, ih]
      simp
    · rw [if_pos (by simp)]
      simp only [List.filterMap_cons, ih]

/-- Records failing the date guard contribute nothing to the aggregation:
dropping them first changes no output. -/
theorem calc_filter_invariant (rs : List PRecord) :
    calculate_monthly_medians (rs.filter dateOK) = calculate_monthly_medians rs := by
  unfold calculate_monthly_medians
  rw [filterMap_recordKey_filter]
  apply List.filterMap_congr
  intro k _
  unfold mkAggregate
  rw [groupPrices_filter]

/-- The pattern loop is the ordered first-match-wins scan of the rule
table. -/
theorem extract_weight_go_eq_findSome? (t : List Char) :
    ∀ ps : List (RE × ℚ), extract_weight_go ps t = List.findSome? (ruleValue t) ps := by
  intro ps
  induction ps with
  | nil => rfl
  | cons pm ps ih =>
    obtain ⟨p, m⟩ := pm
    rw [List.findSome?_cons]
    simp only [extract_weight_go, ruleValue]
    cases hs : searchFrom p t with
    | none => simp only [hs]; exact ih
    | some cap =>
      simp only [hs]
      by_cases hb : 1/100 < parseNum cap * m ∧ parseNum cap * m < 100000
      · rw [if_pos hb, if_pos hb]
      · rw [if_neg hb, if_neg hb]; exact ih

/-- With an empty ruleset table, step 2 warns on every file and keeps
nothing — it does not abort. -/
theorem pipelineStep2_empty :
    ∀ (files : List SourceFile) (seen : List (List Char)),
      pipelineStep2 [] files seen = (files.map SourceFile.name, [], seen) := by
  intro files
  induction files with
  | nil => intro seen; rfl
  | cons f fs ih =>
    intro seen
    have hk : get_material_key ([] : List (List Char × (List Char × (List Char → Bool))))
        f.name = none := rfl
    simp only [pipelineStep2, hk, ih, List.map_cons]

/-! ## The claims -/

/-- C1 (amended): in the monthly-aggregation path, a record with an empty
`sale_date`, or one shorter than 7 characters, is placed in no bucket
(dropping all such records changes no aggregate, and an empty date is
already excluded at load time); but a record whose sale-date text has
length at least 7 — parseable or not — is bucketed under its first 7
characters. -/
theorem monthly_bucket_date_gate :
    (∀ rs : List PRecord,
        calculate_monthly_medians (rs.filter dateOK) = calculate_monthly_medians rs)
    ∧ (∀ row : CsvRow, row.sale_date = [] → loadRow row = none)
    ∧ (∀ r : PRecord, r.sale_date ≠ [] → 7 ≤ r.sale_date.length →
        recordKey r = some (r.material_slug, r.sale_date.take 7)) := by
  refine ⟨calc_filter_invariant, ?_, ?_⟩
  · intro row h
    unfold loadRow
    rw [if_pos (Or.inr h)]
  · intro r h1 h2
    unfold recordKey
    rw [if_pos ⟨h1, h2⟩]

theorem monthly_bucket_date_gate_witness :
    loadRow { material_slug := "m".data, price_per_gram := "10".data, sale_date := [] } =
      none :=
  monthly_bucket_date_gate.2.1 _ rfl

/-- C1 counterexample: the unparseable sale date `Unknown` (the date
extractor's fallback output, 7 characters long) is *not* excluded — the
record is bucketed under `("m", "Unknown")` and yields an aggregate with
`recorded_at = "Unknown-15"`. -/
theorem unparsed_date_still_bucketed :
    parse_date "Unknown".data = some "Unknown".data
    ∧ load_merged_csv [csvU] = [recU]
    ∧ calculate_monthly_medians [recU] =
        [{ material_slug := "m".data, price_usd := 10, price_per := "gram".data,
           sample_count := 1, recorded_at := "Unknown-15".data }]
    ∧ calculate_monthly_medians [recU] ≠ [] := by
  refine ⟨pd_unknown, ?_, calc_U, ?_⟩
  · show List.filterMap loadRow [csvU] = [recU]
    simp [List.filterMap_cons, lr_csvU]
  · rw [calc_U]
    simp

/-- C2 (amended): a CanonicalSale emitted by the normalizer has
`price_per_gram = round(amount / mass, 2)` whenever `mass_grams` is set
*and positive*; when `mass_grams` is unset — or set to a non-positive
pre-supplied value — `price_per_gram` is null. -/
theorem ppg_consistency (slug : List Char) (row : RawRow) (s : CanonicalSale)
    (h : normalize_row slug row = some s) :
    (∀ w, s.weight_grams = some w → 0 < w →
        s.price_per_gram = some (pyRound 2 (s.price_usd / w)))
    ∧ (∀ w, s.weight_grams = some w → ¬0 < w → s.price_per_gram = none)
    ∧ (s.weight_grams = none → s.price_per_gram = none) := by
  unfold normalize_row at h
  split at h
  · cases h
  · split at h
    · cases h
    · obtain rfl := Option.some.inj h
      dsimp only
      refine ⟨?_, ?_, ?_⟩
      · intro w hw hpos
        rw [hw]
        simp [hpos]
      · intro w hw hpos
        rw [hw]
        simp [hpos]
      · intro hw
        rw [hw]

theorem ppg_consistency_witness :
    ∃ s, normalize_row "m".data rowFiveG = some s ∧
      s.price_per_gram = some (pyRound 2 (s.price_usd / 5)) :=
  ⟨_, nr_rowFiveG, (ppg_consistency _ _ _ nr_rowFiveG).1 5 rfl (by norm_num)⟩

/-- C2 counterexample: a pre-supplied `weight_grams` of `-5` is kept, so
the emitted record has `mass_grams` set but `price_per_gram = null`,
violating `price_per_gram == round(amount/mass_grams, 2)`. -/
theorem nonpositive_mass_ppg_null :
    ∃ s, normalize_row "m".data rowNeg = some s ∧ s.weight_grams = some (-5)
      ∧ s.price_per_gram = none
      ∧ s.price_per_gram ≠ some (pyRound 2 (s.price_usd / (-5))) :=
  ⟨_, nr_rowNeg, rfl, rfl, by simp⟩

/-- C3 (amended): a pre-supplied mass field is used whenever it is present
and parses as a *nonzero* float — negative and out-of-bounds values
included, with priority over title-derived mass; when the field is empty,
unparseable, or zero, the title extractor is used instead, and only
title-derived masses are subject to the `(0.01, 100000)` bound — a title
mass of `0.005` g is treated as unknown, giving `price_per_gram = null`,
and a null `price_per_gram` is excluded at load time. -/
theorem mass_priority :
    (∀ (slug : List Char) (row : RawRow) (s : CanonicalSale),
        normalize_row slug row = some s →
        (∀ v, floatParse row.weight_grams = some v → v ≠ 0 → s.weight_grams = some v)
        ∧ ((row.weight_grams = [] ∨ floatParse row.weight_grams = none ∨
              floatParse row.weight_grams = some 0) →
            s.weight_grams = extract_weight row.title))
    ∧ (∀ t w, extract_weight t = some w →
        ∃ w₀, 1/100 < w₀ ∧ w₀ < 100000 ∧ w = pyRound 3 w₀)
    ∧ extract_weight "tiny 0.005g dust".data = none
    ∧ (∃ s, normalize_row "m".data rowTiny = some s ∧ s.weight_grams = none ∧
        s.price_per_gram = none)
    ∧ (∀ row : CsvRow, row.price_per_gram = [] → loadRow row = none) := by
  refine ⟨?_, ?_, ew_tiny, ⟨_, nr_rowTiny, rfl, rfl⟩, ?_⟩
  · intro slug row s h
    unfold normalize_row at h
    split at h
    · cases h
    · split at h
      · cases h
      · obtain rfl := Option.some.inj h
        dsimp only
        constructor
        · intro v hv hvne
          by_cases hmt : row.weight_grams = []
          · rw [hmt] at hv
            have h0 : floatParse ([] : List Char) = none := rfl
            rw [h0] at hv
            cases hv
          · rw [if_neg hmt, hv]
            simp [hvne]
        · intro hcase
          rcases hcase with hmt | hfp | hfp0
          · rw [if_pos hmt]
          · by_cases hmt : row.weight_grams = []
            · rw [if_pos hmt]
            · rw [if_neg hmt, hfp]
          · by_cases hmt : row.weight_grams = []
            · rw [if_pos hmt]
            · rw [if_neg hmt, hfp0]
              simp
  · intro t w h
    exact extract_weight_go_bounds patterns t w h
  · intro row h
    unfold loadRow
    rw [if_pos (Or.inl h)]

theorem mass_priority_witness :
    ∃ s, normalize_row "m".data rowPreTiny = some s ∧ s.weight_grams = some (1/200) :=
  ⟨_, nr_rowPreTiny, (mass_priority.1 _ _ _ nr_rowPreTiny).1 (1/200) fp_0005 (by norm_num)⟩

/-- C3 counterexample: a listing with pre-supplied mass `0.005` (below the
`0.01` bound) is *not* treated as unknown — the mass is kept and
`price_per_gram = 10000` is computed; and a pre-supplied mass need not be
positive — `-5` is accepted. -/
theorem presupplied_mass_unchecked :
    (∃ s, normalize_row "m".data rowPreTiny = some s ∧ s.weight_grams = some (1/200)
      ∧ s.price_per_gram = some 10000 ∧ ¬(1/100 < (1/200 : ℚ)))
    ∧ (∃ s, normalize_row "m".data rowNeg = some s ∧ s.weight_grams = some (-5)) :=
  ⟨⟨_, nr_rowPreTiny, rfl, rfl, by norm_num⟩, ⟨_, nr_rowNeg, rfl⟩⟩

/-- C4 (amended): the aggregator emits exactly one aggregate per non-empty
`(material, month)` group, in strictly ascending key order; each
aggregate's value is the statistical median of the group's
price-per-gram values *rounded to 2 decimals*, its sample count is the
group size, and its `recorded_at` is the month's 15th; the median itself
is the standard one (`median [1,2,3,4] = 2.5`, `median [1,2,3] = 2`). -/
theorem monthly_aggregation (rs : List PRecord) :
    List.Pairwise keyLT ((calculate_monthly_medians rs).map aggKey)
    ∧ (∀ k : MKey, (∃ a ∈ calculate_monthly_medians rs, aggKey a = k) ↔
        ∃ r ∈ rs, recordKey r = some k)
    ∧ (∀ a ∈ calculate_monthly_medians rs,
        a.price_usd = pyRound 2 (median (groupPrices rs (aggKey a)))
        ∧ a.sample_count = (groupPrices rs (aggKey a)).length
        ∧ groupPrices rs (aggKey a) ≠ []
        ∧ a.recorded_at = (aggKey a).2 ++ "-15".data)
    ∧ median [1, 2, 3, 4] = 5/2 ∧ median [1, 2, 3] = 2 := by
  have hrec : ∀ k ∈ List.insertionSort keyLE ((rs.filterMap recordKey).dedup),
      aggKey (aggOf rs k) = k :=
    fun k hk => aggKey_aggOf (key_month_len (key_mem_iff.mp hk))
  refine ⟨?_, ?_, ?_, med_1234, med_123⟩
  · have hkeys : (calculate_monthly_medians rs).map aggKey =
        List.insertionSort keyLE ((rs.filterMap recordKey).dedup) := by
      rw [calc_eq_map, List.map_map]
      exact (List.map_congr_left (fun k hk => hrec k hk)).trans (List.map_id _)
    rw [hkeys]
    exact pairwise_keyLT_insertionSort _ (List.nodup_dedup _)
  · intro k
    constructor
    · rintro ⟨a, ha, rfl⟩
      rw [calc_eq_map] at ha
      obtain ⟨k', hk', rfl⟩ := List.mem_map.mp ha
      rw [hrec k' hk']
      exact key_mem_iff.mp hk'
    · intro hr
      have hk : k ∈ List.insertionSort keyLE ((rs.filterMap recordKey).dedup) :=
        key_mem_iff.mpr hr
      exact ⟨aggOf rs k, by rw [calc_eq_map]; exact List.mem_map_of_mem _ hk, hrec k hk⟩
  · intro a ha
    rw [calc_eq_map] at ha
    obtain ⟨k, hk, rfl⟩ := List.mem_map.mp ha
    rw [hrec k hk]
    exact ⟨rfl, rfl, groupPrices_ne_nil (key_mem_iff.mp hk), rfl⟩

theorem monthly_aggregation_witness :
    ∃ a ∈ calculate_monthly_medians rs4, aggKey a = ("m".data, "2021-03".data) :=
  ((monthly_aggregation rs4).2.1 ("m".data, "2021-03".data)).mpr (by decide)

/-- C4 counterexample: for the group `[1, 1.01]` the statistical median is
`1.005`, but the emitted aggregate's value is `1` — the rounded median,
not the median. -/
theorem aggregate_value_rounded :
    calculate_monthly_medians rsTie =
      [{ material_slug := "m".data, price_usd := 1, price_per := "gram".data,
         sample_count := 2, recorded_at := "2020-01-15".data }]
    ∧ groupPrices rsTie ("m".data, "2020-01".data) = [1, 101/100]
    ∧ median [1, 101/100] = 201/200
    ∧ (1 : ℚ) ≠ 201/200 :=
  ⟨calc_tie, rfl, med_tie, by norm_num⟩

/-- C5 (confirmed): the mass extractor is the ordered first-match-wins
scan of the unit rules — grams ×1 (three spellings), carats ×0.2 (two
spellings), ounces ×28.35, kilograms ×1000, pounds ×453.6 — keeping a
match only when the converted value lies in `(0.01, 100000)` and falling
through to later rules otherwise, returning unknown when no rule
produces an in-bounds value; and `5.2g`, `5.2 grams`, `12ct`, `2oz`,
`1.5kg` evaluate to `5.2`, `5.2`, `2.4`, `56.7`, `1500` grams while a
unit-less numeric string yields unknown. -/
theorem mass_extractor_spec :
    (∀ t, extract_weight t = List.findSome? (ruleValue t) patterns)
    ∧ patterns.map Prod.snd = [1, 1, 1, 1/5, 1/5, 567/20, 1000, 2268/5]
    ∧ extract_weight "5.2g".data = some (26/5)
    ∧ extract_weight "5.2 grams".data = some (26/5)
    ∧ extract_weight "12ct".data = some (12/5)
    ∧ extract_weight "2oz".data = some (567/10)
    ∧ extract_weight "1.5kg".data = some 1500
    ∧ extract_weight "5.2".data = none
    ∧ (∀ t, (∀ pm ∈ patterns, ruleValue t pm = none) → extract_weight t = none) := by
  refine ⟨fun t => extract_weight_go_eq_findSome? t patterns, rfl, ew_52g, ew_52grams,
    ew_12ct, ew_2oz, ew_15kg, ew_unitless, ?_⟩
  intro t h
  rw [show extract_weight t = List.findSome? (ruleValue t) patterns from
    extract_weight_go_eq_findSome? t patterns]
  exact List.findSome?_eq_none_iff.mpr h

theorem mass_extractor_spec_witness : extract_weight "99".data = none :=
  mass_extractor_spec.2.2.2.2.2.2.2.2 "99".data (by decide)

/-- C6 (amended): per listing, the classification predicate is evaluated
*before* the dedup membership test and insertion: a predicate-rejected
listing touches no dedup state, and the dedup test runs only on
predicate-passing listings. -/
theorem filter_before_dedup (pred : List Char → Bool) (seen : List (List Char))
    (t : List Char) :
    step2Row pred seen t =
      if pred (lowerStr t) then
        (if (lowerStr t).take 60 ∈ seen then (false, seen)
         else (true, (lowerStr t).take 60 :: seen))
      else (false, seen) := by
  unfold step2Row
  by_cases hp : pred (lowerStr t) <;> simp [hp]

/-- C6 counterexample: the source's step differs observably from the
claimed dedup-first step — on a predicate-rejected title the source
records no dedup key, while the dedup-before-classification order the
claim describes would insert it. -/
theorem dedup_not_before_filter :
    step2Row trinPred [] "Red Trinitite lot".data ≠
      step2Row_dedupFirst trinPred [] "Red Trinitite lot".data
    ∧ (step2Row trinPred [] "Red Trinitite lot".data).2 = []
    ∧ (step2Row_dedupFirst trinPred [] "Red Trinitite lot".data).2 =
        [(lowerStr "Red Trinitite lot".data).take 60] :=
  ⟨by decide, by decide, by decide⟩

/-- C7 (confirmed): a predicate-rejected listing leaves the dedup set
unchanged; `admit` returns false and records nothing when the key is
present, otherwise inserts the key and returns true; and a later,
correctly-matching ruleset can still admit a listing whose title key a
rejected listing would otherwise have consumed. -/
theorem dedup_admit_spec (pred : List Char → Bool) (seen : List (List Char))
    (t : List Char) :
    (pred (lowerStr t) = false → step2Row pred seen t = (false, seen))
    ∧ (pred (lowerStr t) = true → (lowerStr t).take 60 ∈ seen →
        step2Row pred seen t = (false, seen))
    ∧ (pred (lowerStr t) = true → (lowerStr t).take 60 ∉ seen →
        step2Row pred seen t = (true, (lowerStr t).take 60 :: seen))
    ∧ (∀ (pred₂ : List Char → Bool) (t₂ : List Char),
        pred (lowerStr t) = false → pred₂ (lowerStr t₂) = true →
        (lowerStr t₂).take 60 ∉ seen →
        step2Row pred₂ (step2Row pred seen t).2 t₂ =
          (true, (lowerStr t₂).take 60 :: seen)) := by
  refine ⟨?_, ?_, ?_, ?_⟩
  · intro hp
    simp [step2Row, hp]
  · intro hp hk
    simp [step2Row, hp, hk]
  · intro hp hk
    simp [step2Row, hp, hk]
  · intro pred₂ t₂ hp hp2 hk
    have h1 : step2Row pred seen t = (false, seen) := by simp [step2Row, hp]
    rw [h1]
    simp [step2Row, hp2, hk]

theorem dedup_admit_spec_witness :
    step2Row plainTrin (step2Row trinPred [] "Red Trinitite lot".data).2
        "Trinitite fragment".data =
      (true, [(lowerStr "Trinitite fragment".data).take 60]) :=
  (dedup_admit_spec trinPred [] "Red Trinitite lot".data).2.2.2 plainTrin
    "Trinitite fragment".data (by decide) (by decide) (by decide)

/-- C8 (amended): an empty (or missing) ruleset table is not an up-front
fatal condition: every file is skipped with a warning and the core
pipeline completes normally, emitting zero canonical sales; and a
per-record failure such as an unparseable price merely rejects that
record. -/
theorem empty_config_skips_all :
    (∀ files : List SourceFile, pipelineW [] files = (files.map SourceFile.name, []))
    ∧ (∀ (slug : List Char) (row : RawRow),
        parse_price (firstNonEmpty row.price_usd row.price) = none →
        normalize_row slug row = none) := by
  constructor
  · intro files
    unfold pipelineW
    rw [pipelineStep2_empty]
    rfl
  · intro slug row h
    unfold normalize_row
    rw [h]

theorem empty_config_skips_all_witness :
    normalize_row "m".data rowNoPrice = none :=
  empty_config_skips_all.2 "m".data rowNoPrice (by decide)

/-- C8 counterexample: with an empty ruleset table the run does not fail
before processing — the file is read, skipped with a warning, and the
pipeline returns normally with zero output. -/
theorem empty_config_not_fatal :
    pipelineW [] [fileC8] = (["darwin-glass.csv".data], [])
    ∧ get_material_key ([] : List (List Char × (List Char × (List Char → Bool))))
        fileC8.name = none := by
  constructor
  · unfold pipelineW
    rw [pipelineStep2_empty]
    rfl
  · rfl

/-- C9 (confirmed): feeding the same listing sequence twice through the
filter-dedup pass with one shared seen set admits exactly what one pass
admits — the second pass admits nothing and leaves the seen set
unchanged. -/
theorem dedup_idempotent (pred : List Char → Bool) (s : List (List Char))
    (rows : List RawRow) :
    step2Rows pred s (rows ++ rows) = step2Rows pred s rows
    ∧ step2Rows pred (step2Rows pred s rows).2 rows = ([], (step2Rows pred s rows).2) := by
  have h2 : step2Rows pred (step2Rows pred s rows).2 rows =
      ([], (step2Rows pred s rows).2) :=
    step2Rows_stable pred rows _ (fun row hm hp => step2Rows_covers pred rows s row hm hp)
  refine ⟨?_, h2⟩
  rw [step2Rows_append, h2]
  simp

/-- C10 (confirmed): the import filter silently drops every record whose
price-per-gram is non-positive or above 50000, so every monthly median is
computed only from values in `(0, 50000]` — even though the per-sale
bounds allow the normalizer to emit a price-per-gram of `49999950`, which
the filter then drops. -/
theorem load_ppg_bounds :
    (∀ (rows : List CsvRow) (r : PRecord), r ∈ load_merged_csv rows →
        0 < r.price_per_gram ∧ r.price_per_gram ≤ 50000)
    ∧ (∀ (row : CsvRow) (p : ℚ), floatParse row.price_per_gram = some p →
        (p ≤ 0 ∨ 50000 < p) → loadRow row = none)
    ∧ (∀ (rows : List CsvRow) (k : MKey) (p : ℚ),
        p ∈ groupPrices (load_merged_csv rows) k → 0 < p ∧ p ≤ 50000)
    ∧ (∃ s, normalize_row "m".data rowBig = some s ∧ s.price_per_gram = some 49999950
        ∧ (50000 : ℚ) < 49999950)
    ∧ loadRow csvBig = none := by
  have hmain : ∀ (rows : List CsvRow) (r : PRecord), r ∈ load_merged_csv rows →
      0 < r.price_per_gram ∧ r.price_per_gram ≤ 50000 := by
    intro rows r hr
    obtain ⟨row, _, h⟩ := List.mem_filterMap.mp hr
    unfold loadRow at h
    split at h
    · cases h
    · split at h
      · cases h
      · split at h
        · cases h
        · rename_i hb
          push_neg at hb
          obtain rfl := Option.some.inj h
          exact hb
  refine ⟨hmain, ?_, ?_, ⟨_, nr_rowBig, rfl, by norm_num⟩, lr_csvBig⟩
  · intro row p hp hout
    unfold loadRow
    split
    · rfl
    · rw [hp]
      show (if p ≤ 0 ∨ 50000 < p then none
            else some (⟨row.material_slug, p, row.sale_date⟩ : PRecord)) = none
      rw [if_pos hout]
  · intro rows k p hp
    obtain ⟨r, hr, hif⟩ := List.mem_filterMap.mp hp
    split at hif
    · exact (Option.some.inj hif) ▸ hmain rows r hr
    · cases hif

theorem load_ppg_bounds_witness : loadRow csv60k = none :=
  load_ppg_bounds.2.1 csv60k 60000 fp_60000 (by norm_num)

end Lithos
